import Mathlib

/-!
A shallow embedding of the CacheRefine cache library (C++ headers under
src/src/) and proofs about it.  Each C++ class is translated to a Lean
structure plus executable functions, one per member function, keeping the
source's names.  The source's `unordered_map`s are modelled as association
lists in insertion order (their iteration order is unspecified in C++ and,
where iterated, only order-independent facts are proved); a doubly linked
list with sentinels is modelled as the Lean list of its payload nodes in
link order.  C++ `int` is modelled as `Int`, `size_t` as `Nat`; the one
place where an `int` is converted to `size_t` by the usual arithmetic
conversions is made explicit (`intAsSizeT`).  Mutation is modelled by
state passing, out-parameters by passing the variable's current value in
and returning its possibly updated value, and `throw` by `Except`.
-/

namespace CacheMgr

/-- First binding of `k` in an association list (a `find` on the source's
key→node hash maps). -/
def alookup {K A : Type} [DecidableEq K] : List (K × A) → K → Option A
  | [], _ => none
  | (k', a) :: t, k => if k' = k then some a else alookup t k

/-- `m[k] = a`: replace the binding in place if the key exists, otherwise
append a new binding (insertion order is the canonical iteration order
chosen for the source's hash maps). -/
def aset {K A : Type} [DecidableEq K] : List (K × A) → K → A → List (K × A)
  | [], k, a => [(k, a)]
  | (k', a') :: t, k, a => if k' = k then (k, a) :: t else (k', a') :: aset t k a

/-- `m.erase(k)`: drop the binding of `k`, if any. -/
def aerase {K A : Type} [DecidableEq K] : List (K × A) → K → List (K × A)
  | [], _ => []
  | (k', a') :: t, k => if k' = k then t else (k', a') :: aerase t k

/-- Remove the first occurrence of `k` from a plain list (unlinking one
node from a doubly linked list). -/
def lerase {K : Type} [DecidableEq K] : List K → K → List K
  | [], _ => []
  | a :: t, k => if a = k then t else a :: lerase t k

/-- The C++ conversion of an `int` to `size_t` applied when the two are
compared: non-negative values are unchanged, negative values wrap
modulo 2^64. -/
def intAsSizeT (c : Int) : Nat := (c % (2 ^ 64 : Int)).toNat

/-- C++ `int` division (truncation toward zero). -/
def cppDiv (a b : Int) : Int := Int.tdiv a b

/-- One public cache operation: `put(k, v)` or the two-argument `get(k, &v)`
(whose out-variable starts default-constructed in the drivers below). -/
inductive CacheOp (Key Value : Type) where
  | put (k : Key) (v : Value)
  | get (k : Key)

/-! ## `LRUCache` (src/src/LRU/CacheLRU.h)

The doubly linked list bounded by `dummyHead_`/`dummyTail_` and the
`nodeMap_` key→node map always hold exactly the same nodes, so both are
modelled by one association list in recency order: the head of the Lean
list is `dummyHead_->next_` (least recent), the last element is
`dummyTail_->prev_` (most recent).  The node's unused `count_` field is
omitted. -/

structure LRUCache (Key Value : Type) where
  capacity : Int
  entries : List (Key × Value)
deriving DecidableEq

namespace LRUCache

variable {Key Value : Type} [DecidableEq Key]

/-- `LRUCache::LRUCache(int capacity)`: empty list between the sentinels. -/
def init (capacity : Int) : LRUCache Key Value := ⟨capacity, []⟩

/-- `removeNode` followed by `insertNode`: the node moves to the tail
(most recent) position, carrying its current value. -/
def moveToMostRecent (s : LRUCache Key Value) (k : Key) (v : Value) : LRUCache Key Value :=
  { s with entries := aerase s.entries k ++ [(k, v)] }

/-- `LRUCache::updateExistingNode`: `setValue` then `moveToMostRecent`. -/
def updateExistingNode (s : LRUCache Key Value) (k : Key) (v : Value) : LRUCache Key Value :=
  moveToMostRecent s k v

/-- `LRUCache::evictLeastRecent`: unlink `dummyHead_->next_` and erase its
key from the map.  (On an empty list the source would unlink the tail
sentinel, a no-op of `removeNode`, and erase the default key; the branch is
unreachable from the public operations.) -/
def evictLeastRecent (s : LRUCache Key Value) : LRUCache Key Value :=
  { s with entries := s.entries.tail }

/-- `LRUCache::addNode`: evict when `nodeMap_.size() >= capacity_`, then
append the new node at the tail and insert it into the map. -/
def addNode (s : LRUCache Key Value) (k : Key) (v : Value) : LRUCache Key Value :=
  let s := if intAsSizeT s.capacity ≤ s.entries.length then evictLeastRecent s else s
  { s with entries := s.entries ++ [(k, v)] }

/-- `LRUCache::put`. -/
def put (s : LRUCache Key Value) (k : Key) (v : Value) : LRUCache Key Value :=
  if s.capacity ≤ 0 then s
  else
    match alookup s.entries k with
    | some _ => updateExistingNode s k v
    | none => addNode s k v

/-- `LRUCache::get(key, val)`: `val` is the caller's out-variable, returned
updated on a hit and untouched on a miss. -/
def get (s : LRUCache Key Value) (k : Key) (val : Value) :
    Bool × Value × LRUCache Key Value :=
  match alookup s.entries k with
  | some v => (true, v, moveToMostRecent s k v)
  | none => (false, val, s)

/-- `LRUCache::get(key)`: `Value val{}; get(key, val); return val;`. -/
def get1 [Inhabited Value] (s : LRUCache Key Value) (k : Key) :
    Value × LRUCache Key Value :=
  let r := get s k default
  (r.2.1, r.2.2)

/-- `LRUCache::remove`. -/
def remove (s : LRUCache Key Value) (k : Key) : LRUCache Key Value :=
  { s with entries := aerase s.entries k }

/-- Driver for operation sequences. -/
def runOp [Inhabited Value] (s : LRUCache Key Value) : CacheOp Key Value → LRUCache Key Value
  | .put k v => s.put k v
  | .get k => (s.get k default).2.2

def run [Inhabited Value] (s : LRUCache Key Value) (ops : List (CacheOp Key Value)) :
    LRUCache Key Value :=
  ops.foldl runOp s

end LRUCache

/-! ## `LRUKCache` (src/src/LRU/CacheLRUK.h)

`LRUKCache` inherits from `LRUCache` (the main cache) and owns a second
`LRUCache<Key, size_t>` of access counters plus the `histValMap_` of
pending values. -/

structure LRUKCache (Key Value : Type) where
  main : LRUCache Key Value
  k : Int
  histList : LRUCache Key Nat
  histValMap : List (Key × Value)

namespace LRUKCache

variable {Key Value : Type} [DecidableEq Key] [Inhabited Value]

/-- `LRUKCache::LRUKCache(int capatity, int histCapatity, int k)`. -/
def init (capacity histCapacity k : Int) : LRUKCache Key Value :=
  ⟨LRUCache.init capacity, k, LRUCache.init histCapacity, []⟩

/-- `LRUKCache::put`. -/
def put (s : LRUKCache Key Value) (key : Key) (val : Value) : LRUKCache Key Value :=
  let r := s.main.get key default
  let s := { s with main := r.2.2 }
  if r.1 then { s with main := s.main.put key val }
  else
    let rh := s.histList.get1 key
    let histCount := rh.1 + 1
    let s := { s with histList := rh.2.put key histCount,
                      histValMap := aset s.histValMap key val }
    if intAsSizeT s.k ≤ histCount then
      { s with histList := s.histList.remove key,
               histValMap := aerase s.histValMap key,
               main := s.main.put key val }
    else s

/-- `LRUKCache::get(key, val)`. -/
def get (s : LRUKCache Key Value) (key : Key) (val : Value) :
    Bool × Value × LRUKCache Key Value :=
  let r := s.main.get key val
  let s := { s with main := r.2.2 }
  let rh := s.histList.get1 key
  let histCount := rh.1 + 1
  let s := { s with histList := rh.2.put key histCount }
  if r.1 then (true, r.2.1, s)
  else if intAsSizeT s.k ≤ histCount then
    match alookup s.histValMap key with
    | some pending =>
        let s := { s with histList := s.histList.remove key,
                          histValMap := aerase s.histValMap key }
        (true, pending, { s with main := s.main.put key pending })
    | none => (false, r.2.1, s)
  else (false, r.2.1, s)

/-- `LRUKCache::get(key)`: `Value val{}; get(key, val); return val;`. -/
def get1 (s : LRUKCache Key Value) (key : Key) : Value × LRUKCache Key Value :=
  let r := get s key default
  (r.2.1, r.2.2)

def runOp (s : LRUKCache Key Value) : CacheOp Key Value → LRUKCache Key Value
  | .put k v => s.put k v
  | .get k => (s.get k default).2.2

def run (s : LRUKCache Key Value) (ops : List (CacheOp Key Value)) : LRUKCache Key Value :=
  ops.foldl runOp s

end LRUKCache

/-! ## `LFUCache` (src/src/LFU/CacheLFU.h)

A node of the frequency-list engine (`FreqList::LFUNode`) keeps its `freq`
counter and value; its `prev`/`next` links are represented by the node's
position in its bucket list.  `cacheMap_` is an association list in
insertion order; `freqListMap_` maps a frequency to the keys on that
`FreqList`, oldest (`dummyHead_->next`) first, and a bucket in the map is
never null (the source allocates the `FreqList` before inserting). -/

structure LFUNode (Value : Type) where
  freq : Int
  val : Value
deriving DecidableEq

structure LFUCache (Key Value : Type) where
  capacity : Int
  minFreq : Int
  cacheMap : List (Key × LFUNode Value)
  freqListMap : List (Int × List Key)
deriving DecidableEq

namespace LFUCache

variable {Key Value : Type} [DecidableEq Key]

/-- `LFUCache::LFUCache(int capacity)`. -/
def init (capacity : Int) : LFUCache Key Value := ⟨capacity, 0, [], []⟩

/-- `LFUCache::removeNodeFromFreqList` for the node with key `k` whose
`freq` field reads `f`.  When the bucket list becomes empty the bucket is
erased and, if it was the tracked minimum, `minFreq_` is advanced to
`minFreq_ + 1` (or reset to 0 when the bucket map became empty). -/
def removeNodeFromFreqList (s : LFUCache Key Value) (k : Key) (f : Int) :
    LFUCache Key Value :=
  match alookup s.freqListMap f with
  | none => s
  | some l =>
    let l' := lerase l k
    if l'.isEmpty then
      let fl := aerase s.freqListMap f
      if s.minFreq = f then
        { s with freqListMap := fl, minFreq := if fl.isEmpty then 0 else s.minFreq + 1 }
      else { s with freqListMap := fl }
    else { s with freqListMap := aset s.freqListMap f l' }

/-- `LFUCache::addNodeToFreqList` for the node with key `k` whose `freq`
field reads `f`: create the bucket if missing, then append at the tail. -/
def addNodeToFreqList (s : LFUCache Key Value) (k : Key) (f : Int) :
    LFUCache Key Value :=
  match alookup s.freqListMap f with
  | none => { s with freqListMap := aset s.freqListMap f [k] }
  | some l => { s with freqListMap := aset s.freqListMap f (l ++ [k]) }

/-- `LFUCache::put`.  On a resident key only the value is overwritten.  On a
new key, eviction of `getFirstNode()` of the `minFreq_` bucket happens only
when the map is full, `minFreq_ > 0` and that bucket is present; then the
new node is inserted with frequency 1 and `minFreq_` is reset to 1. -/
def put (s : LFUCache Key Value) (k : Key) (v : Value) : LFUCache Key Value :=
  if s.capacity = 0 then s
  else
    match alookup s.cacheMap k with
    | some nd => { s with cacheMap := aset s.cacheMap k { nd with val := v } }
    | none =>
      let s :=
        if intAsSizeT s.capacity ≤ s.cacheMap.length ∧ 0 < s.minFreq then
          match alookup s.freqListMap s.minFreq with
          | some (k0 :: _) =>
            -- `removeNodeFromFreqList(node)` reads the node's own `freq`
            -- field; a key on a bucket always denotes a live node, so the
            -- default is never taken on states built by the operations.
            let f0 := ((alookup s.cacheMap k0).map (·.freq)).getD s.minFreq
            let s := removeNodeFromFreqList s k0 f0
            { s with cacheMap := aerase s.cacheMap k0 }
          | _ => s
        else s
      let s := { s with cacheMap := aset s.cacheMap k ⟨1, v⟩, minFreq := 1 }
      addNodeToFreqList s k 1

/-- `LFUCache::get(key, val)`: on a hit the node leaves its bucket, its
frequency is incremented, `minFreq_` is incremented when its bucket is
missing or empty, and the node joins the `freq + 1` bucket. -/
def get (s : LFUCache Key Value) (k : Key) (val : Value) :
    Bool × Value × LFUCache Key Value :=
  match alookup s.cacheMap k with
  | none => (false, val, s)
  | some nd =>
    let s := removeNodeFromFreqList s k nd.freq
    let f' := nd.freq + 1
    let s := { s with cacheMap := aset s.cacheMap k { nd with freq := f' } }
    let s :=
      if (alookup s.freqListMap s.minFreq).elim true List.isEmpty then
        { s with minFreq := s.minFreq + 1 }
      else s
    let s := addNodeToFreqList s k f'
    (true, nd.val, s)

/-- `LFUCache::get(key)`: `Value val; get(key, val); return val;` (the
default-initialised local is modelled as the default element). -/
def get1 [Inhabited Value] (s : LFUCache Key Value) (k : Key) :
    Value × LFUCache Key Value :=
  let r := get s k default
  (r.2.1, r.2.2)

/-- `LFUCache::purge`. -/
def purge (s : LFUCache Key Value) : LFUCache Key Value :=
  { s with cacheMap := [], freqListMap := [], minFreq := 0 }

def runOp [Inhabited Value] (s : LFUCache Key Value) : CacheOp Key Value → LFUCache Key Value
  | .put k v => s.put k v
  | .get k => (s.get k default).2.2

def run [Inhabited Value] (s : LFUCache Key Value) (ops : List (CacheOp Key Value)) :
    LFUCache Key Value :=
  ops.foldl runOp s

end LFUCache

/-- The smallest frequency among the non-empty bucket lists of a
frequency→list map; `none` when every bucket is empty or absent.  This is
the specification-side reading of invariant I5. -/
def smallestNonemptyFreq {Key : Type} (fl : List (Int × List Key)) : Option Int :=
  fl.foldl
    (fun acc p =>
      if p.2.isEmpty then acc
      else match acc with
        | none => some p.1
        | some m => some (min m p.1))
    none

/-! ## `LFUAvgCache` (src/src/LFU/CacheLFUAvg.h)

Same node and bucket representation as `LFUCache`, with the aging
machinery on top.  `INT8_MAX` (the initial and sentinel `minFreq_`)
is 127. -/

structure LFUAvgCache (Key Value : Type) where
  capacity : Int
  minFreq : Int
  maxAvgFreq : Int
  currentAvgFreq : Int
  currentTotalFreq : Int
  cacheMap : List (Key × LFUNode Value)
  freqListMap : List (Int × List Key)
deriving DecidableEq

namespace LFUAvgCache

variable {Key Value : Type} [DecidableEq Key]

/-- `LFUAvgCache::LFUAvgCache(int capacity, int maxAvgFreq = 1000000)`. -/
def init (capacity : Int) (maxAvgFreq : Int := 1000000) : LFUAvgCache Key Value :=
  ⟨capacity, 127, maxAvgFreq, 0, 0, [], []⟩

/-- `LFUAvgCache::removeNodeFromFreqList` (same update as the `LFUCache`
version, without the redundant second `find`). -/
def removeNodeFromFreqList (s : LFUAvgCache Key Value) (k : Key) (f : Int) :
    LFUAvgCache Key Value :=
  match alookup s.freqListMap f with
  | none => s
  | some l =>
    let l' := lerase l k
    if l'.isEmpty then
      let fl := aerase s.freqListMap f
      if s.minFreq = f then
        { s with freqListMap := fl, minFreq := if fl.isEmpty then 0 else s.minFreq + 1 }
      else { s with freqListMap := fl }
    else { s with freqListMap := aset s.freqListMap f l' }

/-- `LFUAvgCache::addNodeToFreqList`. -/
def addNodeToFreqList (s : LFUAvgCache Key Value) (k : Key) (f : Int) :
    LFUAvgCache Key Value :=
  match alookup s.freqListMap f with
  | none => { s with freqListMap := aset s.freqListMap f [k] }
  | some l => { s with freqListMap := aset s.freqListMap f (l ++ [k]) }

/-- `LFUAvgCache::updateMinFreq`: minimum over the non-empty buckets,
starting from the `INT8_MAX` sentinel, which is turned into 1 when no
bucket lowered it. -/
def updateMinFreq (s : LFUAvgCache Key Value) : LFUAvgCache Key Value :=
  let mf := s.freqListMap.foldl
    (fun m p => if p.2.isEmpty then m else min m p.1) 127
  { s with minFreq := if mf = 127 then 1 else mf }

/-- `LFUAvgCache::handleOverMaxAverageNum`: every resident node loses
`maxAvgFreq_ / 2` of its frequency (floored at 1) and is moved to the
bucket of its new frequency; then `updateMinFreq`.  The source iterates
`cacheMap_` (an `unordered_map`, order unspecified); the embedding iterates
in insertion order. -/
def handleOverMaxAverageNum (s : LFUAvgCache Key Value) : LFUAvgCache Key Value :=
  if s.cacheMap.isEmpty then s
  else
    let step := fun (t : LFUAvgCache Key Value) (k : Key) =>
      match alookup t.cacheMap k with
      | none => t
      | some nd =>
        let t := removeNodeFromFreqList t k nd.freq
        let f1 := nd.freq - cppDiv t.maxAvgFreq 2
        let f2 := if f1 ≤ 0 then 1 else f1
        let t := { t with cacheMap := aset t.cacheMap k { nd with freq := f2 } }
        addNodeToFreqList t k f2
    updateMinFreq ((s.cacheMap.map (·.1)).foldl step s)

/-- `LFUAvgCache::addFreqNum`: bump the total, recompute the average
(`int` division by the resident count), and trigger aging when it exceeds
`maxAvgFreq_`. -/
def addFreqNum (s : LFUAvgCache Key Value) : LFUAvgCache Key Value :=
  let total := s.currentTotalFreq + 1
  let avg := if s.cacheMap.isEmpty then 0 else cppDiv total s.cacheMap.length
  let s := { s with currentTotalFreq := total, currentAvgFreq := avg }
  if s.maxAvgFreq < s.currentAvgFreq then handleOverMaxAverageNum s else s

/-- `LFUAvgCache::decreaseFreqNum`. -/
def decreaseFreqNum (s : LFUAvgCache Key Value) (num : Int) : LFUAvgCache Key Value :=
  let total := s.currentTotalFreq - num
  let total := if total < 0 then 0 else total
  let avg := if s.cacheMap.isEmpty then 0 else cppDiv total s.cacheMap.length
  { s with currentTotalFreq := total, currentAvgFreq := avg }

/-- `LFUAvgCache::kickOut`: evict `getFirstNode()` of the `minFreq_`
bucket.  `freqListMap_[minFreq_]` on a missing bucket default-constructs a
null list and dereferences it — undefined behaviour in the source —
modelled as a no-op; likewise an empty bucket would yield the tail
sentinel. -/
def kickOut (s : LFUAvgCache Key Value) : LFUAvgCache Key Value :=
  match alookup s.freqListMap s.minFreq with
  | some (k0 :: _) =>
    let f0 := ((alookup s.cacheMap k0).map (·.freq)).getD s.minFreq
    let s := removeNodeFromFreqList s k0 f0
    let s := { s with cacheMap := aerase s.cacheMap k0 }
    decreaseFreqNum s f0
  | _ => s

/-- `LFUAvgCache::putInternal`. -/
def putInternal (s : LFUAvgCache Key Value) (k : Key) (v : Value) :
    LFUAvgCache Key Value :=
  let s := if intAsSizeT s.capacity ≤ s.cacheMap.length then kickOut s else s
  let s := { s with cacheMap := aset s.cacheMap k ⟨1, v⟩ }
  let s := addNodeToFreqList s k 1
  let s := addFreqNum s
  { s with minFreq := min s.minFreq 1 }

/-- `LFUAvgCache::getInternal` for the node with key `k` currently reading
`nd` (the out-value `node->val` is taken by the caller before this runs).
The `freqListMap_[node->freq - 1]->isEmpty()` test on a missing bucket
would dereference a default-constructed null list (undefined behaviour in
the source); it is modelled as "empty", and the conjunction short-circuits
exactly as `&&` does. -/
def getInternal (s : LFUAvgCache Key Value) (k : Key) (nd : LFUNode Value) :
    LFUAvgCache Key Value :=
  let s := removeNodeFromFreqList s k nd.freq
  let f' := nd.freq + 1
  let s := { s with cacheMap := aset s.cacheMap k { nd with freq := f' } }
  let s := addNodeToFreqList s k f'
  let s :=
    if f' - 1 = s.minFreq then
      if (alookup s.freqListMap (f' - 1)).elim true List.isEmpty then
        { s with minFreq := s.minFreq + 1 }
      else s
    else s
  addFreqNum s

/-- `LFUAvgCache::put`. -/
def put (s : LFUAvgCache Key Value) (k : Key) (v : Value) : LFUAvgCache Key Value :=
  if s.capacity = 0 then s
  else
    match alookup s.cacheMap k with
    | some nd =>
      let nd := { nd with val := v }
      let s := { s with cacheMap := aset s.cacheMap k nd }
      getInternal s k nd
    | none => putInternal s k v

/-- `LFUAvgCache::get(key, val)`. -/
def get (s : LFUAvgCache Key Value) (k : Key) (val : Value) :
    Bool × Value × LFUAvgCache Key Value :=
  match alookup s.cacheMap k with
  | some nd => (true, nd.val, getInternal s k nd)
  | none => (false, val, s)

/-- `LFUAvgCache::get(key)`. -/
def get1 [Inhabited Value] (s : LFUAvgCache Key Value) (k : Key) :
    Value × LFUAvgCache Key Value :=
  let r := get s k default
  (r.2.1, r.2.2)

/-- `LFUAvgCache::purge`. -/
def purge (s : LFUAvgCache Key Value) : LFUAvgCache Key Value :=
  { s with cacheMap := [], freqListMap := [], minFreq := 127,
           currentAvgFreq := 0, currentTotalFreq := 0 }

def runOp [Inhabited Value] (s : LFUAvgCache Key Value) :
    CacheOp Key Value → LFUAvgCache Key Value
  | .put k v => s.put k v
  | .get k => (s.get k default).2.2

def run [Inhabited Value] (s : LFUAvgCache Key Value)
    (ops : List (CacheOp Key Value)) : LFUAvgCache Key Value :=
  ops.foldl runOp s

end LFUAvgCache

/-! ## ARC (src/src/ARC/CacheARCNode.h, CacheARCLRUPart.h, CacheARCLFUPart.h,
CacheARC.h)

`ARCNode` carries key, value and the `count_` access counter (`size_t`).
In the LRU half, `mainCache_` and the main linked list always hold the
same nodes; both are one Lean list with the head playing
`mainHead_->next` (most recent: `addToFront` prepends, `evictLeastRecent`
takes `mainTail_->prev_`, the last element).  The ghost list has the same
orientation (`addToGhostCache` prepends, `removeOldestGhostNode` drops the
last element).  In the LFU half, nodes are listed in `mainMap` (insertion
order) with `freqMap_` (`std::map`, ordered) as frequency buckets holding
keys with `push_back` order, and the ghost list is oriented the other way:
`addToGhostCache` appends before the tail sentinel and
`removeOldestGhostNode` drops `ghostHead_->next`, the head.  All
capacities are `size_t`. -/

structure ARCNode (Key Value : Type) where
  key : Key
  val : Value
  count : Nat
deriving DecidableEq

/-- Unlink the node with key `k` from a node list. -/
def eraseNode {Key Value : Type} [DecidableEq Key] :
    List (ARCNode Key Value) → Key → List (ARCNode Key Value)
  | [], _ => []
  | nd :: t, k => if nd.key = k then t else nd :: eraseNode t k

structure ARCLRUCache (Key Value : Type) where
  capacity : Nat
  ghostCapacity : Nat
  transformThreshold : Nat
  mainList : List (ARCNode Key Value)
  ghostList : List (ARCNode Key Value)
deriving DecidableEq

namespace ARCLRUCache

variable {Key Value : Type} [DecidableEq Key]

/-- `ARCLRUCache::ARCLRUCache(size_t capacity, size_t transformThreshold)`. -/
def init (capacity transformThreshold : Nat) : ARCLRUCache Key Value :=
  ⟨capacity, capacity, transformThreshold, [], []⟩

/-- `mainCache_.find(key)`. -/
def findMain (s : ARCLRUCache Key Value) (k : Key) : Option (ARCNode Key Value) :=
  s.mainList.find? (fun nd => decide (nd.key = k))

/-- `ARCLRUCache::removeOldestGhostNode`: drop `ghostTail_->prev_` unless
the ghost list is empty. -/
def removeOldestGhostNode (s : ARCLRUCache Key Value) : ARCLRUCache Key Value :=
  { s with ghostList := s.ghostList.dropLast }

/-- `ARCLRUCache::addToGhostCache`: reset the access count and prepend at
the ghost head. -/
def addToGhostCache (s : ARCLRUCache Key Value) (nd : ARCNode Key Value) :
    ARCLRUCache Key Value :=
  { s with ghostList := { nd with count := 1 } :: s.ghostList }

/-- `ARCLRUCache::evictLeastRecent`: unlink `mainTail_->prev_`, push it
into the ghost cache (trimming the ghost first when full) and erase it
from the main map. -/
def evictLeastRecent (s : ARCLRUCache Key Value) : ARCLRUCache Key Value :=
  match s.mainList.getLast? with
  | none => s
  | some nd =>
    let s := { s with mainList := s.mainList.dropLast }
    let s := if s.ghostCapacity ≤ s.ghostList.length then removeOldestGhostNode s else s
    addToGhostCache s nd

/-- `ARCLRUCache::addNewNode`. -/
def addNewNode (s : ARCLRUCache Key Value) (k : Key) (v : Value) :
    ARCLRUCache Key Value :=
  let s := if s.capacity ≤ s.mainList.length then evictLeastRecent s else s
  { s with mainList := ⟨k, v, 1⟩ :: s.mainList }

/-- `ARCLRUCache::put` (returns the source's `bool`). -/
def put (s : ARCLRUCache Key Value) (k : Key) (v : Value) :
    Bool × ARCLRUCache Key Value :=
  if s.capacity = 0 then (false, s)
  else
    match findMain s k with
    | some nd =>
      -- `updateExistingNode`: `setValue` and `moveToFront` (the access
      -- count increment is commented out in the source)
      (true, { s with mainList := { nd with val := v } :: eraseNode s.mainList k })
    | none => (true, addNewNode s k v)

/-- `ARCLRUCache::get(key, value, shouldTransform)`: on a hit the node
moves to the front, its count is incremented, and `shouldTransform` says
whether the count reached `transformThreshold_`. -/
def get (s : ARCLRUCache Key Value) (k : Key) (val : Value) :
    Bool × Value × Bool × ARCLRUCache Key Value :=
  match findMain s k with
  | some nd =>
    let nd' := { nd with count := nd.count + 1 }
    (true, nd.val, s.transformThreshold ≤ nd'.count,
      { s with mainList := nd' :: eraseNode s.mainList k })
  | none => (false, val, false, s)

/-- `ARCLRUCache::checkGhost`: consume the ghost entry for `k`, if any. -/
def checkGhost (s : ARCLRUCache Key Value) (k : Key) : Bool × ARCLRUCache Key Value :=
  if s.ghostList.any (fun nd => decide (nd.key = k)) then
    (true, { s with ghostList := eraseNode s.ghostList k })
  else (false, s)

/-- `ARCLRUCache::increaseCapacity`. -/
def increaseCapacity (s : ARCLRUCache Key Value) : ARCLRUCache Key Value :=
  { s with capacity := s.capacity + 1, ghostCapacity := s.ghostCapacity + 1 }

/-- `ARCLRUCache::decreaseCapacity`: refuse when the capacity is already
zero (`0 >= capacity_` on a `size_t`); otherwise evict a resident if the
main cache is full, trim the ghost if full, and decrement both
capacities. -/
def decreaseCapacity (s : ARCLRUCache Key Value) : Bool × ARCLRUCache Key Value :=
  if s.capacity = 0 then (false, s)
  else
    let s := if s.mainList.length = s.capacity then evictLeastRecent s else s
    let s := if s.ghostList.length = s.ghostCapacity then removeOldestGhostNode s else s
    (true, { s with capacity := s.capacity - 1, ghostCapacity := s.ghostCapacity - 1 })

end ARCLRUCache

structure ARCLFUCache (Key Value : Type) where
  capacity : Nat
  ghostCapacity : Nat
  transformThreshold : Nat
  minFreq : Nat
  mainMap : List (ARCNode Key Value)
  freqMap : List (Nat × List Key)
  ghostList : List (ARCNode Key Value)
deriving DecidableEq

namespace ARCLFUCache

variable {Key Value : Type} [DecidableEq Key]

/-- `ARCLFUCache::ARCLFUCache(size_t capacity, size_t transformThreshold)`. -/
def init (capacity transformThreshold : Nat) : ARCLFUCache Key Value :=
  ⟨capacity, capacity, transformThreshold, 0, [], [], []⟩

/-- `mainCache_.find(key)`. -/
def findMain (s : ARCLFUCache Key Value) (k : Key) : Option (ARCNode Key Value) :=
  s.mainMap.find? (fun nd => decide (nd.key = k))

/-- The entry of `freqMap_` with the smallest frequency
(`freqMap_.begin()` of the `std::map`). -/
def freqMapMin (fm : List (Nat × List Key)) : Option (Nat × List Key) :=
  fm.foldl
    (fun acc p =>
      match acc with
      | none => some p
      | some q => if p.1 < q.1 then some p else some q)
    none

/-- Append `k` to the bucket for `f`, creating the bucket if missing. -/
def bucketAppend (s : ARCLFUCache Key Value) (f : Nat) (k : Key) :
    ARCLFUCache Key Value :=
  match alookup s.freqMap f with
  | none => { s with freqMap := aset s.freqMap f [k] }
  | some l => { s with freqMap := aset s.freqMap f (l ++ [k]) }

/-- `ARCLFUCache::updateNodeFrequency` for the node with key `k` reading
`nd`. -/
def updateNodeFrequency (s : ARCLFUCache Key Value) (k : Key) (nd : ARCNode Key Value) :
    ARCLFUCache Key Value :=
  let oldFreq := nd.count
  let nd' := { nd with count := nd.count + 1 }
  let newFreq := nd'.count
  if oldFreq = newFreq then s
  else
    let s := { s with mainMap := s.mainMap.map (fun m => if m.key = k then nd' else m) }
    let s :=
      match alookup s.freqMap oldFreq with
      | none => s
      | some l =>
        let l' := lerase l k
        if l'.isEmpty then
          { s with freqMap := aerase s.freqMap oldFreq,
                   minFreq := if s.minFreq = oldFreq then newFreq else s.minFreq }
        else { s with freqMap := aset s.freqMap oldFreq l' }
    let s := bucketAppend s newFreq k
    { s with minFreq := min s.minFreq newFreq }

/-- `ARCLFUCache::removeOldestGhostNode`: drop `ghostHead_->next`, the
head of the ghost list, unless empty. -/
def removeOldestGhostNode (s : ARCLFUCache Key Value) : ARCLFUCache Key Value :=
  { s with ghostList := s.ghostList.tail }

/-- `ARCLFUCache::addToGhostCache`: append before the tail sentinel. -/
def addToGhostCache (s : ARCLFUCache Key Value) (nd : ARCNode Key Value) :
    ARCLFUCache Key Value :=
  { s with ghostList := s.ghostList ++ [nd] }

/-- The tail of `ARCLFUCache::evictLeastRecent` from
`leastRecentNode = it->second.front()` on, applied to the selected bucket
`(f, bucket)` (`it`): pop the front key, erase the bucket if it became
empty (moving `minFreq_` to `freqMap_.begin()` or 0), push the victim into
the ghost cache (trimming it first when full) and erase the victim from
the main map.  A bucket key always denotes a node of `mainCache_`; the
`none` branch of `findMain` is unreachable on states built by the
operations. -/
def evictFrom (s : ARCLFUCache Key Value) (f : Nat) (bucket : List Key) :
    ARCLFUCache Key Value :=
  match bucket with
  | [] => s
  | k0 :: rest =>
    let s :=
      if rest.isEmpty then
        let fm := aerase s.freqMap f
        { s with freqMap := fm,
                 minFreq := ((freqMapMin fm).map (·.1)).getD 0 }
      else { s with freqMap := aset s.freqMap f rest }
    match findMain s k0 with
    | none => { s with mainMap := eraseNode s.mainMap k0 }
    | some victim =>
      let s := if s.ghostCapacity ≤ s.ghostList.length then removeOldestGhostNode s else s
      let s := addToGhostCache s victim
      { s with mainMap := eraseNode s.mainMap k0 }

/-- `ARCLFUCache::evictLeastRecent`: take the front node of the `minFreq_`
bucket, falling back to `freqMap_.begin()` when that bucket is present but
empty (erasing it, and resetting `minFreq_` to 0 and returning when the
map became empty), then `evictFrom` the selected bucket. -/
def evictLeastRecent (s : ARCLFUCache Key Value) : ARCLFUCache Key Value :=
  if s.freqMap.isEmpty then s
  else
    match alookup s.freqMap s.minFreq with
    | none => s
    | some l =>
      if l.isEmpty then
        let fm := aerase s.freqMap s.minFreq
        if fm.isEmpty then { s with freqMap := fm, minFreq := 0 }
        else
          match freqMapMin fm with
          | none => { s with freqMap := fm }
          | some p => evictFrom { s with freqMap := fm } p.1 p.2
      else evictFrom s s.minFreq l

/-- `ARCLFUCache::addNewNode`: evict when full, insert the node with
count 1 into the map and the frequency-1 bucket, and reset `minFreq_`. -/
def addNewNode (s : ARCLFUCache Key Value) (k : Key) (v : Value) :
    ARCLFUCache Key Value :=
  let s := if s.capacity ≤ s.mainMap.length then evictLeastRecent s else s
  let s := { s with mainMap := s.mainMap ++ [⟨k, v, 1⟩] }
  let s := bucketAppend s 1 k
  { s with minFreq := 1 }

/-- `ARCLFUCache::put`. -/
def put (s : ARCLFUCache Key Value) (k : Key) (v : Value) :
    Bool × ARCLFUCache Key Value :=
  if s.capacity = 0 then (false, s)
  else
    match findMain s k with
    | some nd =>
      let nd := { nd with val := v }
      let s := { s with mainMap := s.mainMap.map (fun m => if m.key = k then nd else m) }
      (true, updateNodeFrequency s k nd)
    | none => (true, addNewNode s k v)

/-- `ARCLFUCache::get(key, value)`. -/
def get (s : ARCLFUCache Key Value) (k : Key) (val : Value) :
    Bool × Value × ARCLFUCache Key Value :=
  match findMain s k with
  | some nd => (true, nd.val, updateNodeFrequency s k nd)
  | none => (false, val, s)

/-- `ARCLFUCache::contains`. -/
def contains (s : ARCLFUCache Key Value) (k : Key) : Bool :=
  (findMain s k).isSome

/-- `ARCLFUCache::checkGhost`. -/
def checkGhost (s : ARCLFUCache Key Value) (k : Key) : Bool × ARCLFUCache Key Value :=
  if s.ghostList.any (fun nd => decide (nd.key = k)) then
    (true, { s with ghostList := eraseNode s.ghostList k })
  else (false, s)

/-- `ARCLFUCache::increaseCapacity`. -/
def increaseCapacity (s : ARCLFUCache Key Value) : ARCLFUCache Key Value :=
  { s with capacity := s.capacity + 1, ghostCapacity := s.ghostCapacity + 1 }

/-- `ARCLFUCache::decreaseCapacity` (same shape as the LRU half). -/
def decreaseCapacity (s : ARCLFUCache Key Value) : Bool × ARCLFUCache Key Value :=
  if s.capacity = 0 then (false, s)
  else
    let s := if s.mainMap.length = s.capacity then evictLeastRecent s else s
    let s := if s.ghostList.length = s.ghostCapacity then removeOldestGhostNode s else s
    (true, { s with capacity := s.capacity - 1, ghostCapacity := s.ghostCapacity - 1 })

end ARCLFUCache

structure ARCCache (Key Value : Type) where
  capacity : Nat
  transformThreshold : Nat
  lruCache : ARCLRUCache Key Value
  lfuCache : ARCLFUCache Key Value
deriving DecidableEq

namespace ARCCache

variable {Key Value : Type} [DecidableEq Key]

/-- `ARCCache::ARCCache(size_t capacity = 10, size_t transformThreshold = 2)`:
note that both halves are constructed with the full `capacity`. -/
def init (capacity : Nat := 10) (transformThreshold : Nat := 2) : ARCCache Key Value :=
  ⟨capacity, transformThreshold,
    ARCLRUCache.init capacity transformThreshold,
    ARCLFUCache.init capacity transformThreshold⟩

/-- `ARCCache::checkGhost`: a ghost hit on one half tries to shrink the
other half's capacity; only on success does the favoured half grow. -/
def checkGhost (s : ARCCache Key Value) (k : Key) : Bool × ARCCache Key Value :=
  let rl := s.lruCache.checkGhost k
  if rl.1 then
    let rd := s.lfuCache.decreaseCapacity
    let lru := if rd.1 then rl.2.increaseCapacity else rl.2
    (true, { s with lruCache := lru, lfuCache := rd.2 })
  else
    let rf := s.lfuCache.checkGhost k
    if rf.1 then
      let rd := rl.2.decreaseCapacity
      let lfu := if rd.1 then rf.2.increaseCapacity else rf.2
      (true, { s with lruCache := rd.2, lfuCache := lfu })
    else (false, { s with lruCache := rl.2, lfuCache := rf.2 })

/-- `ARCCache::get(key, value)`. -/
def get (s : ARCCache Key Value) (k : Key) (val : Value) :
    Bool × Value × ARCCache Key Value :=
  let s := (checkGhost s k).2
  let rl := s.lruCache.get k val
  let s := { s with lruCache := rl.2.2.2 }
  if rl.1 then
    let s := if rl.2.2.1 then { s with lfuCache := (s.lfuCache.put k rl.2.1).2 } else s
    (true, rl.2.1, s)
  else
    let rf := s.lfuCache.get k rl.2.1
    (rf.1, rf.2.1, { s with lfuCache := rf.2.2 })

/-- `ARCCache::put`. -/
def put (s : ARCCache Key Value) (k : Key) (v : Value) : ARCCache Key Value :=
  let s := (checkGhost s k).2
  let inLfu := s.lfuCache.contains k
  let s := { s with lruCache := (s.lruCache.put k v).2 }
  if inLfu then { s with lfuCache := (s.lfuCache.put k v).2 } else s

/-- `ARCCache::get(key)`: on a miss the source throws
`std::runtime_error("Key not found in cache")`, modelled as `Except.error`
of the exception's message. -/
def get1 [Inhabited Value] (s : ARCCache Key Value) (k : Key) :
    Except String Value × ARCCache Key Value :=
  let r := get s k default
  if r.1 then (.ok r.2.1, r.2.2) else (.error "Key not found in cache", r.2.2)

def runOp [Inhabited Value] (s : ARCCache Key Value) : CacheOp Key Value → ARCCache Key Value
  | .put k v => s.put k v
  | .get k => (s.get k default).2.2

def run [Inhabited Value] (s : ARCCache Key Value) (ops : List (CacheOp Key Value)) :
    ARCCache Key Value :=
  ops.foldl runOp s

end ARCCache

/-! ## `LFUHashCache` (src/src/LFU/CacheLFUHash.h)

The shard vector `lfuSliceCaches_` of `LFUAvgCache`s, with the key routed
by `hash(key) mod sliceNum_`.  `std::hash` is a platform facility, so the
hash function is a field of the model.  The source's `static_cast<int>` of
a `size_t` (two's-complement truncation to 32 bits) and the `int`→`size_t`
conversions around the `%` are made explicit. -/

/-- `static_cast<int>` of an unsigned value: truncate to 32 bits and
reinterpret in two's complement. -/
def toInt32 (n : Nat) : Int :=
  let r : Nat := n % 2 ^ 32
  if r < 2 ^ 31 then (r : Int) else (r : Int) - 2 ^ 32

structure LFUHashCache (Key Value : Type) where
  capacity : Int
  sliceNum : Int
  shards : List (LFUAvgCache Key Value)
  hashFn : Key → Nat

namespace LFUHashCache

variable {Key Value : Type} [DecidableEq Key]

/-- `LFUHashCache::Hash`: `static_cast<int>(hashFunc(key))` returned as a
`size_t`. -/
def hashOf (s : LFUHashCache Key Value) (k : Key) : Nat :=
  intAsSizeT (toInt32 (s.hashFn k % 2 ^ 64))

/-- `LFUHashCache::getSliceIndex`: `static_cast<int>(hashValue % sliceNum_)`. -/
def getSliceIndex (s : LFUHashCache Key Value) (k : Key) : Int :=
  toInt32 (hashOf s k % intAsSizeT s.sliceNum)

/-- `LFUHashCache::put`: delegate to the routed shard when the index is in
range, otherwise do nothing. -/
def put (s : LFUHashCache Key Value) (k : Key) (v : Value) : LFUHashCache Key Value :=
  let sliceIndex := intAsSizeT (getSliceIndex s k)
  if h : sliceIndex < s.shards.length then
    { s with shards := s.shards.set sliceIndex (s.shards[sliceIndex].put k v) }
  else s

/-- `LFUHashCache::get(key, val)`: delegate when the index is in range,
otherwise report a miss with the out-variable untouched. -/
def get (s : LFUHashCache Key Value) (k : Key) (val : Value) :
    Bool × Value × LFUHashCache Key Value :=
  let sliceIndex := intAsSizeT (getSliceIndex s k)
  if h : sliceIndex < s.shards.length then
    let r := s.shards[sliceIndex].get k val
    (r.1, r.2.1, { s with shards := s.shards.set sliceIndex r.2.2 })
  else (false, val, s)

/-- `LFUHashCache::get(key)`. -/
def get1 [Inhabited Value] (s : LFUHashCache Key Value) (k : Key) :
    Value × LFUHashCache Key Value :=
  let r := get s k default
  (r.2.1, r.2.2)

/-- `LFUHashCache::purge`: purge every shard, then clear the shard
vector. -/
def purge (s : LFUHashCache Key Value) : LFUHashCache Key Value :=
  let _ := s.shards.map LFUAvgCache.purge
  { s with shards := [] }

def runOp [Inhabited Value] (s : LFUHashCache Key Value) :
    CacheOp Key Value → LFUHashCache Key Value
  | .put k v => s.put k v
  | .get k => (s.get k default).2.2

def run [Inhabited Value] (s : LFUHashCache Key Value)
    (ops : List (CacheOp Key Value)) : LFUHashCache Key Value :=
  ops.foldl runOp s

end LFUHashCache

/-! ## Pointer-level model of the doubly linked node removal

Claim C9 is about the `prev`/`next` pointers themselves, so the three
removal routines are also translated at the level of a node store:
addresses are `Nat`, the null pointer is `none`, and each assignment of
the source is one store update, performed in the source's order.  The
key/value payloads are irrelevant to the claim and omitted. -/

structure PtrNode where
  prev : Option Nat
  next : Option Nat
deriving DecidableEq

abbrev PtrStore := Nat → PtrNode

/-- One pointer assignment: replace the node stored at address `i`. -/
def setNode (σ : PtrStore) (i : Nat) (nd : PtrNode) : PtrStore :=
  fun j => if j = i then nd else σ j

/-- `LRUCache::removeNode` (src/src/LRU/CacheLRU.h, lines 141–149): when
both links are set, splice the neighbours together and clear only the
`next_` pointer of the removed node. -/
def lruRemoveNode (σ : PtrStore) (n : Nat) : PtrStore :=
  match (σ n).prev, (σ n).next with
  | some p, some q =>
    let σ1 := setNode σ p { σ p with next := (σ n).next }
    let σ2 := setNode σ1 q { σ1 q with prev := some p }
    setNode σ2 n { σ2 n with next := none }
  | _, _ => σ

/-- `FreqList::removeNode` (src/src/LFU/CacheLFU.h, lines 84–98): splice
the neighbours together, then clear both links of the removed node.  (The
null-node and null-sentinel guards of the source are outside this model:
the node is addressed directly.) -/
def freqListRemoveNode (σ : PtrStore) (n : Nat) : PtrStore :=
  match (σ n).prev, (σ n).next with
  | some p, some q =>
    let σ1 := setNode σ p { σ p with next := (σ n).next }
    let σ2 := setNode σ1 q { σ1 q with prev := some p }
    let σ3 := setNode σ2 n { σ2 n with prev := none }
    setNode σ3 n { σ3 n with next := none }
  | _, _ => σ

/-- `ARCLFUCache::removeFromGhostCache` (src/src/ARC/CacheARCLFUPart.h,
lines 181–192; `ARCLRUCache` has the same routine): splice the
neighbours, then — under the re-tested `node->next` — clear `next` and
then `prev`. -/
def arcRemoveFromGhostCache (σ : PtrStore) (n : Nat) : PtrStore :=
  match (σ n).prev, (σ n).next with
  | some p, some _ =>
    let σ1 := setNode σ p { σ p with next := (σ n).next }
    match (σ1 n).next with
    | some q2 =>
      let σ2 := setNode σ1 q2 { σ1 q2 with prev := (σ1 n).prev }
      let σ3 := setNode σ2 n { σ2 n with next := none }
      setNode σ3 n { σ3 n with prev := none }
    | none => σ1
  | _, _ => σ

/-- A three-node chain `0 ↔ 1 ↔ 2` (sentinel, payload, sentinel). -/
def chain3 : PtrStore := fun i =>
  if i = 0 then ⟨none, some 1⟩
  else if i = 1 then ⟨some 0, some 2⟩
  else if i = 2 then ⟨some 1, none⟩
  else ⟨none, none⟩

/-- A sample ARC state for exercising the ghost-balancing edge cases: both
halves have capacity 0 and key 7 sits on the LRU half's ghost list. -/
def arcZeroCapState : ARCCache Nat Nat :=
  ⟨5, 2, ⟨0, 0, 2, [], [⟨7, 0, 1⟩]⟩, ⟨0, 0, 2, 0, [], [], []⟩⟩

/-- A sample ARC state with key 7 on the LFU half's ghost list and the LRU
half at capacity 0. -/
def arcZeroCapStateF : ARCCache Nat Nat :=
  ⟨5, 2, ⟨0, 0, 2, [], []⟩, ⟨0, 0, 2, 0, [], [], [⟨7, 0, 1⟩]⟩⟩

/-! # Theorems -/

set_option maxRecDepth 4000 in
/-- C1: on every policy the resident key count is claimed to stay at or
below the declared capacity; the LFU cache violates it.  On `LFUCache(2)`
the sequence `put 1; put 2; get 2; get 2; get 1; get 2; put 3` drives the
tracked `minFreq_` to 5, a frequency with no bucket, so the eviction guard
in `put` fails and the third key is inserted over capacity: the key→node
map ends with 3 resident keys although the declared capacity is 2. -/
theorem c1_lfu_exceeds_capacity :
    ((LFUCache.init 2 : LFUCache Nat Nat).run
        [.put 1 10, .put 2 20, .get 2, .get 2, .get 1, .get 2, .put 3 30]).capacity = 2 ∧
    ((LFUCache.init 2 : LFUCache Nat Nat).run
        [.put 1 10, .put 2 20, .get 2, .get 2, .get 1, .get 2, .put 3 30]).cacheMap.length = 3 := by
  decide

/-- C4 (counterexample): the claim states that on `LRUKCache(2, 4, 2)`,
after `put(1, "a")` a `get(1)` misses.  In the source, `get` itself
increments the history counter, so this very `get` raises the count to
`K = 2`, promotes the pending value and returns a hit with `"a"`. -/
theorem c4_first_get_hits_counterexample :
    (((LRUKCache.init 2 4 2 : LRUKCache Nat String).put 1 "a").get 1 default).1 = true ∧
    (((LRUKCache.init 2 4 2 : LRUKCache Nat String).put 1 "a").get 1 default).2.1 = "a" := by
  decide

/-- C4 (amended): on `LRUKCache(2, 4, 2)` starting empty, after
`put(1, "a")` the first `get(1)` already hits and yields `"a"` (the get
itself records the access that reaches `K` and promotes the pending
value); after a second `put(1, "a")` a further `get(1)` hits and yields
`"a"` as the claim states. -/
theorem c4_lruk_trace :
    (((LRUKCache.init 2 4 2 : LRUKCache Nat String).put 1 "a").get 1 default).1 = true ∧
    (((LRUKCache.init 2 4 2 : LRUKCache Nat String).put 1 "a").get 1 default).2.1 = "a" ∧
    ((((((LRUKCache.init 2 4 2 : LRUKCache Nat String).put 1 "a").get 1
        default).2.2).put 1 "a").get 1 default).1 = true ∧
    ((((((LRUKCache.init 2 4 2 : LRUKCache Nat String).put 1 "a").get 1
        default).2.2).put 1 "a").get 1 default).2.1 = "a" := by
  decide

/-- C5: the claim states that `LFUCache::put` on a resident key overwrites
the value and then registers an access as `get` does.  In the source only
`it->second->val = val;` runs: after `put 1 10; put 1 20` on `LFUCache(2)`
the node's frequency is still 1 and it still sits on the frequency-1
bucket — no access is registered, contradicting the claim and the source's
own comment ("update value and frequency"). -/
theorem c5_lfu_put_resident_no_access :
    alookup (((LFUCache.init 2 : LFUCache Nat Nat).put 1 10).put 1 20).cacheMap 1 =
      some ⟨1, 20⟩ ∧
    alookup (((LFUCache.init 2 : LFUCache Nat Nat).put 1 10).put 1 20).freqListMap 1 =
      some [1] ∧
    alookup (((LFUCache.init 2 : LFUCache Nat Nat).put 1 10).put 1 20).freqListMap 2 =
      none := by
  decide

/-- C6: the claim states that after every public operation the tracked
`minFreq_` equals the smallest frequency with a non-empty bucket.  On
`LFUCache(2)` the sequence `put 1; put 2; get 2; get 2; get 1` leaves
buckets at frequencies 2 and 3 but `minFreq_ = 3`: the smallest non-empty
frequency is 2. -/
theorem c6_lfu_minfreq_mismatch :
    ((LFUCache.init 2 : LFUCache Nat Nat).run
        [.put 1 10, .put 2 20, .get 2, .get 2, .get 1]).minFreq = 3 ∧
    smallestNonemptyFreq
      ((LFUCache.init 2 : LFUCache Nat Nat).run
        [.put 1 10, .put 2 20, .get 2, .get 2, .get 1]).freqListMap = some 2 := by
  decide

set_option maxRecDepth 100000 in
/-- C8: the claim states that when an admitted access pushes the average
frequency over `maxAvg`, an aging pass reduces every frequency by
`maxAvg / 2` (floored at 1) and recomputes `minFreq` as the smallest
non-empty frequency.  On `LFUAvgCache(1, 252)`, one `put` followed by 252
`get`s of the same key triggers aging at total frequency 253; the sole
node's frequency correctly becomes `253 - 126 = 127`, but
`updateMinFreq` starts its scan at the `INT8_MAX = 127` sentinel, finds
the minimum still equal to the sentinel and resets `minFreq` to 1 — not
to 127, the smallest (and only) non-empty frequency. -/
theorem c8_lfuavg_aging_minfreq_bug :
    ((LFUAvgCache.init 1 252 : LFUAvgCache Nat Nat).run
        (CacheOp.put 1 0 :: List.replicate 252 (CacheOp.get 1))).minFreq = 1 ∧
    smallestNonemptyFreq
      ((LFUAvgCache.init 1 252 : LFUAvgCache Nat Nat).run
        (CacheOp.put 1 0 :: List.replicate 252 (CacheOp.get 1))).freqListMap = some 127 ∧
    alookup ((LFUAvgCache.init 1 252 : LFUAvgCache Nat Nat).run
        (CacheOp.put 1 0 :: List.replicate 252 (CacheOp.get 1))).cacheMap 1 =
      some ⟨127, 0⟩ := by
  decide

/-- C9 (counterexample): the claim states that any node removed from one
of the library's doubly linked lists has both structural links cleared.
Removing the middle node of the chain `0 ↔ 1 ↔ 2` with
`LRUCache::removeNode` clears its `next_` pointer but leaves its `prev_`
pointer set to node 0. -/
theorem c9_lru_prev_not_cleared_counterexample :
    ¬ (lruRemoveNode chain3 1 1).prev = none ∧
    (lruRemoveNode chain3 1 1).prev = some 0 ∧
    (lruRemoveNode chain3 1 1).next = none := by
  decide

/-! ## ARC capacity accounting (C2, C7) -/

lemma arclru_evict_capacity {Key Value : Type} [DecidableEq Key]
    (s : ARCLRUCache Key Value) : s.evictLeastRecent.capacity = s.capacity := by
  unfold ARCLRUCache.evictLeastRecent
  cases s.mainList.getLast? with
  | none => rfl
  | some nd =>
    dsimp only [ARCLRUCache.removeOldestGhostNode, ARCLRUCache.addToGhostCache]
    split <;> rfl

lemma arclru_decreaseCapacity_spec {Key Value : Type} [DecidableEq Key]
    (s : ARCLRUCache Key Value) :
    (s.decreaseCapacity.1 = false ∧ s.decreaseCapacity.2 = s ∧ s.capacity = 0) ∨
    (s.decreaseCapacity.1 = true ∧ s.decreaseCapacity.2.capacity + 1 = s.capacity) := by
  unfold ARCLRUCache.decreaseCapacity
  by_cases h : s.capacity = 0
  · left; simp [h]
  · right
    simp only [h, if_false]
    refine ⟨by trivial, ?_⟩
    have h1 : (if s.mainList.length = s.capacity then s.evictLeastRecent else s).capacity
        = s.capacity := by
      split
      · exact arclru_evict_capacity s
      · rfl
    set s1 := if s.mainList.length = s.capacity then s.evictLeastRecent else s with hs1
    have h2 : (if s1.ghostList.length = s1.ghostCapacity
        then s1.removeOldestGhostNode else s1).capacity = s.capacity := by
      split
      · exact h1
      · exact h1
    set s2 := if s1.ghostList.length = s1.ghostCapacity then s1.removeOldestGhostNode else s1
    simp only [h2]
    omega

lemma arclru_checkGhost_capacity {Key Value : Type} [DecidableEq Key]
    (s : ARCLRUCache Key Value) (k : Key) :
    (s.checkGhost k).2.capacity = s.capacity := by
  unfold ARCLRUCache.checkGhost
  split <;> rfl

lemma arclru_put_capacity {Key Value : Type} [DecidableEq Key]
    (s : ARCLRUCache Key Value) (k : Key) (v : Value) :
    (s.put k v).2.capacity = s.capacity := by
  unfold ARCLRUCache.put ARCLRUCache.addNewNode
  split
  · rfl
  · split
    · rfl
    · dsimp only
      split
      · exact arclru_evict_capacity s
      · rfl

lemma arclru_get_capacity {Key Value : Type} [DecidableEq Key]
    (s : ARCLRUCache Key Value) (k : Key) (val : Value) :
    (s.get k val).2.2.2.capacity = s.capacity := by
  unfold ARCLRUCache.get
  split <;> rfl

lemma arclfu_evictFrom_capacity {Key Value : Type} [DecidableEq Key]
    (s : ARCLFUCache Key Value) (f : Nat) (bucket : List Key) :
    (s.evictFrom f bucket).capacity = s.capacity := by
  unfold ARCLFUCache.evictFrom
  cases bucket with
  | nil => rfl
  | cons k0 rest =>
    dsimp only [ARCLFUCache.removeOldestGhostNode, ARCLFUCache.addToGhostCache]
    repeat' split
    all_goals rfl

lemma arclfu_evict_capacity {Key Value : Type} [DecidableEq Key]
    (s : ARCLFUCache Key Value) : s.evictLeastRecent.capacity = s.capacity := by
  unfold ARCLFUCache.evictLeastRecent
  split
  · rfl
  · split
    · rfl
    · split
      · dsimp only
        split
        · rfl
        · split
          · rfl
          · exact arclfu_evictFrom_capacity _ _ _
      · exact arclfu_evictFrom_capacity _ _ _

lemma arclfu_bucketAppend_capacity {Key Value : Type} [DecidableEq Key]
    (s : ARCLFUCache Key Value) (f : Nat) (k : Key) :
    (s.bucketAppend f k).capacity = s.capacity := by
  unfold ARCLFUCache.bucketAppend
  split <;> rfl

lemma arclfu_updateNodeFrequency_capacity {Key Value : Type} [DecidableEq Key]
    (s : ARCLFUCache Key Value) (k : Key) (nd : ARCNode Key Value) :
    (s.updateNodeFrequency k nd).capacity = s.capacity := by
  unfold ARCLFUCache.updateNodeFrequency ARCLFUCache.bucketAppend
  dsimp only
  repeat' split
  all_goals rfl

lemma arclfu_addNewNode_capacity {Key Value : Type} [DecidableEq Key]
    (s : ARCLFUCache Key Value) (k : Key) (v : Value) :
    (s.addNewNode k v).capacity = s.capacity := by
  unfold ARCLFUCache.addNewNode
  dsimp only
  rw [arclfu_bucketAppend_capacity]
  split
  · exact arclfu_evict_capacity s
  · rfl

lemma arclfu_put_capacity {Key Value : Type} [DecidableEq Key]
    (s : ARCLFUCache Key Value) (k : Key) (v : Value) :
    (s.put k v).2.capacity = s.capacity := by
  unfold ARCLFUCache.put
  split
  · rfl
  · split
    · exact arclfu_updateNodeFrequency_capacity _ _ _
    · exact arclfu_addNewNode_capacity _ _ _

lemma arclfu_get_capacity {Key Value : Type} [DecidableEq Key]
    (s : ARCLFUCache Key Value) (k : Key) (val : Value) :
    (s.get k val).2.2.capacity = s.capacity := by
  unfold ARCLFUCache.get
  split
  · exact arclfu_updateNodeFrequency_capacity _ _ _
  · rfl

lemma arclfu_checkGhost_capacity {Key Value : Type} [DecidableEq Key]
    (s : ARCLFUCache Key Value) (k : Key) :
    (s.checkGhost k).2.capacity = s.capacity := by
  unfold ARCLFUCache.checkGhost
  split <;> rfl

lemma arclfu_decreaseCapacity_spec {Key Value : Type} [DecidableEq Key]
    (s : ARCLFUCache Key Value) :
    (s.decreaseCapacity.1 = false ∧ s.decreaseCapacity.2 = s ∧ s.capacity = 0) ∨
    (s.decreaseCapacity.1 = true ∧ s.decreaseCapacity.2.capacity + 1 = s.capacity) := by
  unfold ARCLFUCache.decreaseCapacity
  by_cases h : s.capacity = 0
  · left; simp [h]
  · right
    simp only [h, if_false]
    refine ⟨by trivial, ?_⟩
    have h1 : (if s.mainMap.length = s.capacity then s.evictLeastRecent else s).capacity
        = s.capacity := by
      split
      · exact arclfu_evict_capacity s
      · rfl
    set s1 := if s.mainMap.length = s.capacity then s.evictLeastRecent else s with hs1
    have h2 : (if s1.ghostList.length = s1.ghostCapacity
        then s1.removeOldestGhostNode else s1).capacity = s.capacity := by
      split
      · exact h1
      · exact h1
    set s2 := if s1.ghostList.length = s1.ghostCapacity then s1.removeOldestGhostNode else s1
    simp only [h2]
    omega

lemma arc_checkGhost_capSum {Key Value : Type} [DecidableEq Key]
    (s : ARCCache Key Value) (k : Key) :
    (s.checkGhost k).2.lruCache.capacity + (s.checkGhost k).2.lfuCache.capacity
      = s.lruCache.capacity + s.lfuCache.capacity := by
  unfold ARCCache.checkGhost
  dsimp only
  have h1 := arclru_checkGhost_capacity s.lruCache k
  have h2 := arclfu_checkGhost_capacity s.lfuCache k
  by_cases hrl : (s.lruCache.checkGhost k).1 = true
  · rcases arclfu_decreaseCapacity_spec s.lfuCache with ⟨hb, hs, h0⟩ | ⟨hb, hc⟩
    · simp [hrl, hb, hs, h1]
    · simp [hrl, hb, ARCLRUCache.increaseCapacity]
      omega
  · by_cases hrf : (s.lfuCache.checkGhost k).1 = true
    · rcases arclru_decreaseCapacity_spec (s.lruCache.checkGhost k).2 with
        ⟨hb, hs, h0⟩ | ⟨hb, hc⟩
      · simp [hrl, hrf, hb, hs, h1, h2]
      · simp [hrl, hrf, hb, ARCLFUCache.increaseCapacity]
        omega
    · simp [hrl, hrf, h1, h2]

lemma arc_runOp_capSum {Key Value : Type} [DecidableEq Key] [Inhabited Value]
    (s : ARCCache Key Value) (op : CacheOp Key Value) :
    (s.runOp op).lruCache.capacity + (s.runOp op).lfuCache.capacity
      = s.lruCache.capacity + s.lfuCache.capacity := by
  cases op with
  | put k v =>
    show (s.put k v).lruCache.capacity + (s.put k v).lfuCache.capacity = _
    unfold ARCCache.put
    dsimp only
    split
    · simp only [arclfu_put_capacity, arclru_put_capacity]
      exact arc_checkGhost_capSum s k
    · simp only [arclru_put_capacity]
      exact arc_checkGhost_capSum s k
  | get k =>
    show ((s.get k default).2.2).lruCache.capacity + ((s.get k default).2.2).lfuCache.capacity = _
    unfold ARCCache.get
    dsimp only
    split
    · split
      · simp only [arclfu_put_capacity, arclru_get_capacity]
        exact arc_checkGhost_capSum s k
      · simp only [arclru_get_capacity]
        exact arc_checkGhost_capSum s k
    · simp only [arclfu_get_capacity, arclru_get_capacity]
      exact arc_checkGhost_capSum s k

lemma arc_run_capSum {Key Value : Type} [DecidableEq Key] [Inhabited Value]
    (ops : List (CacheOp Key Value)) (s : ARCCache Key Value) :
    (s.run ops).lruCache.capacity + (s.run ops).lfuCache.capacity
      = s.lruCache.capacity + s.lfuCache.capacity := by
  induction ops generalizing s with
  | nil => rfl
  | cons op t ih =>
    show ((s.runOp op).run t).lruCache.capacity + ((s.runOp op).run t).lfuCache.capacity = _
    rw [ih (s.runOp op)]
    exact arc_runOp_capSum s op

lemma arclru_checkGhost_miss {Key Value : Type} [DecidableEq Key]
    (s : ARCLRUCache Key Value) (k : Key) (h : (s.checkGhost k).1 = false) :
    (s.checkGhost k).2 = s := by
  revert h
  unfold ARCLRUCache.checkGhost
  split
  · intro h; simp at h
  · intro _; rfl

/-- C7: in ARC's ghost-hit balancing, `decreaseCapacity` on a half whose
capacity is already zero returns `false` and leaves the half unchanged, so
the favoured half does not grow; the capacity after a `decreaseCapacity`
is exactly the old capacity minus one on success and unchanged on refusal,
and in particular never negative; and a single `checkGhost` call preserves
the sum of the two halves' capacities. -/
theorem c7_arc_ghost_balancing {Key Value : Type} [DecidableEq Key]
    (s : ARCCache Key Value) (k : Key) :
    (s.lfuCache.capacity = 0 → s.lfuCache.decreaseCapacity = (false, s.lfuCache)) ∧
    (s.lruCache.capacity = 0 → s.lruCache.decreaseCapacity = (false, s.lruCache)) ∧
    (s.lfuCache.capacity = 0 → (s.lruCache.checkGhost k).1 = true →
      (s.checkGhost k).2.lruCache.capacity = s.lruCache.capacity) ∧
    (s.lruCache.capacity = 0 → (s.lruCache.checkGhost k).1 = false →
      (s.lfuCache.checkGhost k).1 = true →
      (s.checkGhost k).2.lfuCache.capacity = s.lfuCache.capacity) ∧
    ((s.lfuCache.decreaseCapacity.2.capacity : Int)
        = (if s.lfuCache.decreaseCapacity.1 = true
           then (s.lfuCache.capacity : Int) - 1 else (s.lfuCache.capacity : Int))) ∧
    ((s.lruCache.decreaseCapacity.2.capacity : Int)
        = (if s.lruCache.decreaseCapacity.1 = true
           then (s.lruCache.capacity : Int) - 1 else (s.lruCache.capacity : Int))) ∧
    (0 ≤ (s.lfuCache.decreaseCapacity.2.capacity : Int)) ∧
    (0 ≤ (s.lruCache.decreaseCapacity.2.capacity : Int)) ∧
    ((s.checkGhost k).2.lruCache.capacity + (s.checkGhost k).2.lfuCache.capacity
      = s.lruCache.capacity + s.lfuCache.capacity) := by
  refine ⟨?_, ?_, ?_, ?_, ?_, ?_, ?_, ?_, arc_checkGhost_capSum s k⟩
  · intro h0
    unfold ARCLFUCache.decreaseCapacity
    simp [h0]
  · intro h0
    unfold ARCLRUCache.decreaseCapacity
    simp [h0]
  · intro h0 hg
    have hd : s.lfuCache.decreaseCapacity.1 = false := by
      unfold ARCLFUCache.decreaseCapacity
      simp [h0]
    unfold ARCCache.checkGhost
    dsimp only
    simp [hg, hd, arclru_checkGhost_capacity]
  · intro h0 hmiss hhit
    have hmr := arclru_checkGhost_miss s.lruCache k hmiss
    have hd : (s.lruCache.checkGhost k).2.decreaseCapacity.1 = false := by
      unfold ARCLRUCache.decreaseCapacity
      rw [hmr]
      simp [h0]
    unfold ARCCache.checkGhost
    dsimp only
    simp [hmiss, hhit, hd, arclfu_checkGhost_capacity]
  · rcases arclfu_decreaseCapacity_spec s.lfuCache with ⟨hb, hs, h0⟩ | ⟨hb, hc⟩
    · simp [hb, hs]
    · simp only [hb, if_true]
      omega
  · rcases arclru_decreaseCapacity_spec s.lruCache with ⟨hb, hs, h0⟩ | ⟨hb, hc⟩
    · simp [hb, hs]
    · simp only [hb, if_true]
      omega
  · omega
  · omega

/-- C7 (witness): the edge cases of the balancing rule at the concrete
states `arcZeroCapState` (key 7 a ghost of the LRU half, LFU half at
capacity 0) and `arcZeroCapStateF` (the symmetric state). -/
theorem c7_arc_ghost_balancing_witness :
    arcZeroCapState.lfuCache.decreaseCapacity = (false, arcZeroCapState.lfuCache) ∧
    arcZeroCapState.lruCache.decreaseCapacity = (false, arcZeroCapState.lruCache) ∧
    (arcZeroCapState.checkGhost 7).2.lruCache.capacity
      = arcZeroCapState.lruCache.capacity ∧
    (arcZeroCapStateF.checkGhost 7).2.lfuCache.capacity
      = arcZeroCapStateF.lfuCache.capacity ∧
    (arcZeroCapState.checkGhost 7).2.lruCache.capacity
        + (arcZeroCapState.checkGhost 7).2.lfuCache.capacity
      = arcZeroCapState.lruCache.capacity + arcZeroCapState.lfuCache.capacity := by
  have h1 := c7_arc_ghost_balancing arcZeroCapState 7
  have h2 := c7_arc_ghost_balancing arcZeroCapStateF 7
  exact ⟨h1.1 (by decide), h1.2.1 (by decide),
    h1.2.2.1 (by decide) (by decide),
    h2.2.2.2.1 (by decide) (by decide) (by decide),
    h1.2.2.2.2.2.2.2.2⟩

/-! ## Key absence through ARC's ghost probe (C3) -/

lemma mem_eraseNode {Key Value : Type} [DecidableEq Key]
    {l : List (ARCNode Key Value)} {k : Key} {nd : ARCNode Key Value}
    (h : nd ∈ eraseNode l k) : nd ∈ l := by
  induction l with
  | nil => simp [eraseNode] at h
  | cons a t ih =>
    revert h
    unfold eraseNode
    split
    · intro h; exact List.mem_cons_of_mem _ h
    · intro h
      rcases List.mem_cons.mp h with h | h
      · exact h ▸ List.mem_cons_self _ _
      · exact List.mem_cons_of_mem _ (ih h)

lemma arclru_evict_mainList {Key Value : Type} [DecidableEq Key]
    (s : ARCLRUCache Key Value) :
    s.evictLeastRecent.mainList = s.mainList ∨
    s.evictLeastRecent.mainList = s.mainList.dropLast := by
  unfold ARCLRUCache.evictLeastRecent
  cases s.mainList.getLast? with
  | none => exact Or.inl rfl
  | some nd =>
    right
    dsimp only [ARCLRUCache.removeOldestGhostNode, ARCLRUCache.addToGhostCache]
    split <;> rfl

lemma arclru_decrease_mainList_subset {Key Value : Type} [DecidableEq Key]
    {s : ARCLRUCache Key Value} {nd : ARCNode Key Value}
    (h : nd ∈ s.decreaseCapacity.2.mainList) : nd ∈ s.mainList := by
  unfold ARCLRUCache.decreaseCapacity at h
  split at h
  · exact h
  · dsimp only at h
    simp only [ARCLRUCache.removeOldestGhostNode] at h
    split at h <;> split at h <;>
      first
        | exact h
        | (rcases arclru_evict_mainList s with he | he
           · rw [he] at h; exact h
           · rw [he] at h; exact (List.dropLast_sublist _).subset h)

lemma arclru_checkGhost_mainList {Key Value : Type} [DecidableEq Key]
    (s : ARCLRUCache Key Value) (k : Key) :
    (s.checkGhost k).2.mainList = s.mainList := by
  unfold ARCLRUCache.checkGhost
  split <;> rfl

lemma arclru_increase_mainList {Key Value : Type} [DecidableEq Key]
    (s : ARCLRUCache Key Value) :
    s.increaseCapacity.mainList = s.mainList := rfl

lemma arclfu_increase_mainMap {Key Value : Type} [DecidableEq Key]
    (s : ARCLFUCache Key Value) :
    s.increaseCapacity.mainMap = s.mainMap := rfl

lemma arclfu_evictFrom_mainMap_subset {Key Value : Type} [DecidableEq Key]
    {s : ARCLFUCache Key Value} {f : Nat} {b : List Key} {nd : ARCNode Key Value}
    (h : nd ∈ (s.evictFrom f b).mainMap) : nd ∈ s.mainMap := by
  revert h
  unfold ARCLFUCache.evictFrom
  cases b with
  | nil => exact id
  | cons k0 rest =>
    dsimp only [ARCLFUCache.removeOldestGhostNode, ARCLFUCache.addToGhostCache]
    repeat' split
    all_goals intro h
    all_goals exact mem_eraseNode h

lemma arclfu_evict_mainMap_subset {Key Value : Type} [DecidableEq Key]
    {s : ARCLFUCache Key Value} {nd : ARCNode Key Value}
    (h : nd ∈ s.evictLeastRecent.mainMap) : nd ∈ s.mainMap := by
  unfold ARCLFUCache.evictLeastRecent at h
  split at h
  · exact h
  · split at h
    · exact h
    · split at h
      · dsimp only at h
        split at h
        · exact h
        · split at h
          · exact h
          · have h2 := arclfu_evictFrom_mainMap_subset h
            exact h2
      · exact arclfu_evictFrom_mainMap_subset h

lemma arclfu_decrease_mainMap_subset {Key Value : Type} [DecidableEq Key]
    {s : ARCLFUCache Key Value} {nd : ARCNode Key Value}
    (h : nd ∈ s.decreaseCapacity.2.mainMap) : nd ∈ s.mainMap := by
  unfold ARCLFUCache.decreaseCapacity at h
  split at h
  · exact h
  · dsimp only at h
    simp only [ARCLFUCache.removeOldestGhostNode] at h
    split at h <;> split at h <;>
      first
        | exact h
        | exact arclfu_evict_mainMap_subset h

lemma arclfu_checkGhost_mainMap {Key Value : Type} [DecidableEq Key]
    (s : ARCLFUCache Key Value) (k : Key) :
    (s.checkGhost k).2.mainMap = s.mainMap := by
  unfold ARCLFUCache.checkGhost
  split <;> rfl

lemma arc_checkGhost_absence {Key Value : Type} [DecidableEq Key]
    (s : ARCCache Key Value) (k key : Key)
    (hl : ∀ nd ∈ s.lruCache.mainList, nd.key ≠ key)
    (hf : ∀ nd ∈ s.lfuCache.mainMap, nd.key ≠ key) :
    (∀ nd ∈ (s.checkGhost k).2.lruCache.mainList, nd.key ≠ key) ∧
    (∀ nd ∈ (s.checkGhost k).2.lfuCache.mainMap, nd.key ≠ key) := by
  unfold ARCCache.checkGhost
  dsimp only
  by_cases hrl : (s.lruCache.checkGhost k).1 = true
  · rw [if_pos hrl]
    dsimp only
    constructor
    · intro nd hm
      apply hl
      by_cases hd : s.lfuCache.decreaseCapacity.1 = true
      · rw [if_pos hd] at hm
        rwa [arclru_increase_mainList, arclru_checkGhost_mainList] at hm
      · rw [if_neg hd] at hm
        rwa [arclru_checkGhost_mainList] at hm
    · intro nd hm
      exact hf nd (arclfu_decrease_mainMap_subset hm)
  · rw [if_neg hrl]
    by_cases hrf : (s.lfuCache.checkGhost k).1 = true
    · rw [if_pos hrf]
      dsimp only
      constructor
      · intro nd hm
        apply hl
        have h2 := arclru_decrease_mainList_subset hm
        rwa [arclru_checkGhost_mainList] at h2
      · intro nd hm
        apply hf
        by_cases hd : (s.lruCache.checkGhost k).2.decreaseCapacity.1 = true
        · rw [if_pos hd] at hm
          rwa [arclfu_increase_mainMap, arclfu_checkGhost_mainMap] at hm
        · rw [if_neg hd] at hm
          rwa [arclfu_checkGhost_mainMap] at hm
    · rw [if_neg hrf]
      dsimp only
      exact ⟨fun nd hm => hl nd (by rwa [arclru_checkGhost_mainList] at hm),
             fun nd hm => hf nd (by rwa [arclfu_checkGhost_mainMap] at hm)⟩

lemma arclru_get_of_absent {Key Value : Type} [DecidableEq Key]
    (s : ARCLRUCache Key Value) (k : Key) (val : Value)
    (h : ∀ nd ∈ s.mainList, nd.key ≠ k) :
    s.get k val = (false, val, false, s) := by
  have hf : s.findMain k = none := by
    unfold ARCLRUCache.findMain
    exact List.find?_eq_none.mpr fun nd hm => by simp [h nd hm]
  unfold ARCLRUCache.get
  rw [hf]

lemma arclfu_get_of_absent {Key Value : Type} [DecidableEq Key]
    (s : ARCLFUCache Key Value) (k : Key) (val : Value)
    (h : ∀ nd ∈ s.mainMap, nd.key ≠ k) :
    s.get k val = (false, val, s) := by
  have hf : s.findMain k = none := by
    unfold ARCLFUCache.findMain
    exact List.find?_eq_none.mpr fun nd hm => by simp [h nd hm]
  unfold ARCLFUCache.get
  rw [hf]

/-- C3 (counterexample): the claim states that on every cache type, the
one-argument `get` on a non-resident key returns a default-constructed
value and does not throw.  `ARCCache::get(key)` instead throws
`std::runtime_error("Key not found in cache")` on a miss, here already on
an empty `ARCCache(2, 2)`. -/
theorem c3_arc_get1_raises_counterexample :
    ((ARCCache.init 2 2 : ARCCache Nat Nat).get1 5).1
      = Except.error "Key not found in cache" := by
  rfl

/-- C3 (amended): the one-argument `get` on a key that is not resident
returns a default-constructed value for `LRUCache`, `LFUCache`,
`LFUAvgCache` and `LFUHashCache`; for `LRUKCache` it does so unless this
very call promotes the key (its history count reaches `K` with a pending
value, in which case the pending value is returned); and `ARCCache` does
not return a default at all — its one-argument `get` throws a runtime
error ("Key not found in cache") on a miss. -/
theorem c3_get1_miss_behaviour {Key Value : Type} [DecidableEq Key] [Inhabited Value] :
    (∀ (s : LRUCache Key Value) (k : Key), alookup s.entries k = none →
      (s.get1 k).1 = (default : Value)) ∧
    (∀ (s : LFUCache Key Value) (k : Key), alookup s.cacheMap k = none →
      (s.get1 k).1 = (default : Value)) ∧
    (∀ (s : LFUAvgCache Key Value) (k : Key), alookup s.cacheMap k = none →
      (s.get1 k).1 = (default : Value)) ∧
    (∀ (s : LFUHashCache Key Value) (k : Key),
      (∀ c ∈ s.shards, alookup c.cacheMap k = none) →
      (s.get1 k).1 = (default : Value)) ∧
    (∀ (s : LRUKCache Key Value) (k : Key), alookup s.main.entries k = none →
      (¬ intAsSizeT s.k ≤ (s.histList.get1 k).1 + 1 ∨ alookup s.histValMap k = none) →
      (s.get1 k).1 = (default : Value)) ∧
    (∀ (s : ARCCache Key Value) (k : Key),
      (∀ nd ∈ s.lruCache.mainList, nd.key ≠ k) →
      (∀ nd ∈ s.lfuCache.mainMap, nd.key ≠ k) →
      (s.get1 k).1 = Except.error "Key not found in cache") := by
  refine ⟨?_, ?_, ?_, ?_, ?_, ?_⟩
  · intro s k h
    unfold LRUCache.get1 LRUCache.get
    rw [h]
  · intro s k h
    unfold LFUCache.get1 LFUCache.get
    rw [h]
  · intro s k h
    unfold LFUAvgCache.get1 LFUAvgCache.get
    rw [h]
  · intro s k h
    unfold LFUHashCache.get1 LFUHashCache.get
    dsimp only
    split
    · rename_i hlt
      have hm : s.shards[intAsSizeT (s.getSliceIndex k)] ∈ s.shards :=
        List.getElem_mem hlt
      unfold LFUAvgCache.get
      rw [h _ hm]
    · rfl
  · intro s k hmain hblock
    unfold LRUKCache.get1 LRUKCache.get
    dsimp only
    unfold LRUCache.get
    rw [hmain]
    dsimp only
    rw [if_neg (show ¬ false = true by decide)]
    rcases hblock with hc | hv
    · rw [if_neg hc]
    · by_cases hcc : intAsSizeT s.k ≤ (s.histList.get1 k).1 + 1
      · rw [if_pos hcc, hv]
      · rw [if_neg hcc]
  · intro s k hl hf
    have habs := arc_checkGhost_absence s k k hl hf
    unfold ARCCache.get1 ARCCache.get
    dsimp only
    rw [arclru_get_of_absent _ _ _ habs.1]
    dsimp only
    rw [arclfu_get_of_absent _ _ _ ?hh]
    case hh =>
      intro nd hm
      exact habs.2 nd hm
    rfl

/-- C3 (witness): the amended behaviour at concrete states: empty caches
of each type (with capacity 2 and, for LRU-K, `K = 2`), probed at key 5. -/
theorem c3_get1_miss_behaviour_witness :
    ((LRUCache.init 2 : LRUCache Nat Nat).get1 5).1 = 0 ∧
    ((LFUCache.init 2 : LFUCache Nat Nat).get1 5).1 = 0 ∧
    ((LFUAvgCache.init 2 : LFUAvgCache Nat Nat).get1 5).1 = 0 ∧
    ((LFUHashCache.mk 2 1 [] (fun n => n) : LFUHashCache Nat Nat).get1 5).1 = 0 ∧
    ((LRUKCache.init 2 4 2 : LRUKCache Nat Nat).get1 5).1 = 0 ∧
    ((ARCCache.init 2 2 : ARCCache Nat Nat).get1 5).1
      = Except.error "Key not found in cache" := by
  have h := @c3_get1_miss_behaviour Nat Nat _ _
  refine ⟨h.1 _ 5 (by decide), h.2.1 _ 5 (by decide), h.2.2.1 _ 5 (by decide),
    h.2.2.2.1 _ 5 (by decide), h.2.2.2.2.1 _ 5 (by decide) (by decide),
    h.2.2.2.2.2 _ 5 (by decide) (by decide)⟩

/-- C2 (counterexample): the claim states that for an `ARCCache` of total
capacity `C` the two half-capacities sum to `C` from construction on.
`ARCCache::ARCCache` hands the full `capacity` to each half: with `C = 1`
both halves start with capacity 1 and the sum is 2, not 1. -/
theorem c2_construction_sum_counterexample :
    (ARCCache.init 1 2 : ARCCache Nat Nat).lruCache.capacity = 1 ∧
    (ARCCache.init 1 2 : ARCCache Nat Nat).lfuCache.capacity = 1 ∧
    (ARCCache.init 1 2 : ARCCache Nat Nat).lruCache.capacity +
      (ARCCache.init 1 2 : ARCCache Nat Nat).lfuCache.capacity ≠ 1 := by
  decide

/-- C2 (amended): each ARC half is constructed with the full declared
capacity `C`, so immediately after construction and after every sequence
of `put`/`get` operations the LRU half's capacity plus the LFU half's
capacity equals `2 * C` (the ghost-hit balancing moves capacity between
the halves but preserves the sum). -/
theorem c2_half_capacity_sum_invariant {Key Value : Type} [DecidableEq Key]
    [Inhabited Value] (C T : Nat) (ops : List (CacheOp Key Value)) :
    ((ARCCache.init C T).run ops).lruCache.capacity
      + ((ARCCache.init C T).run ops).lfuCache.capacity = 2 * C := by
  rw [arc_run_capSum]
  show C + C = 2 * C
  omega

/-- C9 (amended): when a node whose two links are both set is removed,
`FreqList::removeNode` (LFU) and the ARC removal routines clear both of
its links before the node is released; `LRUCache::removeNode` clears only
the `next_` link and leaves the `prev_` link in place, still pointing at
the old predecessor. -/
theorem c9_removal_link_clearing (σ : PtrStore) (n p q : Nat)
    (hp : (σ n).prev = some p) (hq : (σ n).next = some q) :
    (freqListRemoveNode σ n n).prev = none ∧
    (freqListRemoveNode σ n n).next = none ∧
    (arcRemoveFromGhostCache σ n n).prev = none ∧
    (arcRemoveFromGhostCache σ n n).next = none ∧
    (lruRemoveNode σ n n).next = none ∧
    (lruRemoveNode σ n n).prev = some p := by
  unfold freqListRemoveNode arcRemoveFromGhostCache lruRemoveNode
  rw [hp, hq]
  by_cases hnp : n = p <;> by_cases hnq : n = q <;>
    simp_all [setNode, hp, hq]

/-- C9 (witness): the amended behaviour on the concrete chain
`0 ↔ 1 ↔ 2`, removing the middle node. -/
theorem c9_removal_link_clearing_witness :
    (freqListRemoveNode chain3 1 1).prev = none ∧
    (freqListRemoveNode chain3 1 1).next = none ∧
    (arcRemoveFromGhostCache chain3 1 1).prev = none ∧
    (arcRemoveFromGhostCache chain3 1 1).next = none ∧
    (lruRemoveNode chain3 1 1).next = none ∧
    (lruRemoveNode chain3 1 1).prev = some 0 :=
  c9_removal_link_clearing chain3 1 0 2 (by decide) (by decide)

/-- C10: after `LFUHashCache::purge` returns, the wrapper's shard vector
is empty; from then on every `put(key, value)` is a silent no-op (the
state is returned unchanged), every `get(key, &out)` returns `false`
leaving `out` untouched, and no sequence of further operations can ever
repopulate the wrapper. -/
theorem c10_purge_disables_wrapper {Key Value : Type} [DecidableEq Key]
    [Inhabited Value] (s : LFUHashCache Key Value) :
    (∀ (k : Key) (v : Value), (s.purge).put k v = s.purge) ∧
    (∀ (k : Key) (val : Value), (s.purge).get k val = (false, val, s.purge)) ∧
    (∀ ops : List (CacheOp Key Value), (s.purge).run ops = s.purge) := by
  have hput : ∀ (k : Key) (v : Value), (s.purge).put k v = s.purge := by
    intro k v
    unfold LFUHashCache.put
    rw [dif_neg]
    exact Nat.not_lt_zero _
  have hget : ∀ (k : Key) (val : Value), (s.purge).get k val = (false, val, s.purge) := by
    intro k val
    unfold LFUHashCache.get
    rw [dif_neg]
    exact Nat.not_lt_zero _
  refine ⟨hput, hget, ?_⟩
  intro ops
  induction ops with
  | nil => rfl
  | cons op t ih =>
    show ((s.purge).runOp op).run t = s.purge
    have hop : (s.purge).runOp op = s.purge := by
      cases op with
      | put k v => exact hput k v
      | get k =>
        show ((s.purge).get k default).2.2 = s.purge
        rw [hget k default]
    rw [hop]
    exact ih

end CacheMgr
